import Mathlib

/-!
Verification of the message-routing layer of the `popo` repository.

Strings are modelled as `List Char` (one entry per code unit) where the
chunking algorithm manipulates them character-wise, and as Lean `String`
where the code only compares or stores whole payloads.  Stateful code
(persistence, the Discord pipeline) is modelled by explicit state passing;
a fallible persistence call is an `Except` value.
-/

namespace Popo

/-- A stored conversation message (table `messages`): `role` is `"user"` or
`"assistant"`, `content` is the text.  Mirrors `shared/schema.ts`. -/
structure Message where
  role : String
  content : String
deriving DecidableEq, Repr

/-- One entry of the prompt sequence sent to the completion service
(OpenAI chat message). -/
structure ChatCompletionMessage where
  role : String
  content : String
deriving DecidableEq, Repr

/-- Per-guild settings row (table `settings`).  The source field `prefix`
is called `cmdPrefix` here because `prefix` is a Lean keyword. -/
structure Settings where
  guildId : String
  cmdPrefix : String
  responseLength : String
  personality : String
  codeFormat : Bool
  allowedChannels : List String
  channelMode : String
  slashCommandMode : String
  activatedChannels : List String
deriving DecidableEq, Repr

/-- Usage counters row (table `bot_stats`), timestamps omitted. -/
structure BotStats where
  totalServers : Nat
  totalMessages : Nat
  activeConversations : Nat
  apiCalls : Nat
  uptime : Nat
deriving DecidableEq, Repr

/-- A partial stats patch, as accepted by `storage.updateBotStats`. -/
structure BotStatsPatch where
  totalServers : Option Nat
  totalMessages : Option Nat
  activeConversations : Option Nat
  apiCalls : Option Nat
  uptime : Option Nat
deriving DecidableEq, Repr

/-- Outcome of the one external call to the completion service:
either a completion whose primary text may be `null`, or a thrown
failure whose `.message` is available iff the thrown value was an
`Error`. -/
inductive CompletionOutcome where
  | success (content : Option String)
  | failure (errMessage : Option String)
deriving DecidableEq, Repr

/-! ### Chunking algorithm (`splitMessage` in `server/discord/handler.ts`) -/

/-- Whitespace test used to model JavaScript `String.prototype.trim`
(restricted to the whitespace characters that can occur here). -/
def isJsWhitespace (c : Char) : Bool :=
  c == ' ' || c == '\n' || c == '\t' || c == '\r'

/-- Model of JS `trim`: drop whitespace from the left end. -/
def trimLeft (l : List Char) : List Char :=
  l.dropWhile isJsWhitespace

/-- Model of JS `trim`: drop whitespace from the right end. -/
def trimRight (l : List Char) : List Char :=
  (l.reverse.dropWhile isJsWhitespace).reverse

/-- Model of JS `String.prototype.trim`. -/
def trim (l : List Char) : List Char :=
  trimRight (trimLeft l)

/-- Model of JS `text.split('\n')`: `"" ↦ [""]`, `"a\nb" ↦ ["a","b"]`,
a trailing newline yields a trailing empty segment. -/
def splitOnNl : List Char → List (List Char)
  | [] => [[]]
  | c :: rest =>
    if c = '\n' then [] :: splitOnNl rest
    else
      match splitOnNl rest with
      | [] => [[c]]
      | l :: ls => (c :: l) :: ls

/-- The inner `while (remainingLine.length > maxLength)` loop of
`splitMessage`, fuel-indexed to make it structurally recursive: it slices
off `maxLength`-sized pieces and returns them together with the final
remainder.  With `maxLength ≥ 1` a fuel of `l.length` always suffices;
with `maxLength = 0` the source loop does not terminate, so that case is
outside the model's intended domain. -/
def hardSplitGo : Nat → Nat → List Char → List (List Char) × List Char
  | 0, _, l => ([], l)
  | fuel + 1, maxLength, l =>
    if maxLength < l.length then
      let p := hardSplitGo fuel maxLength (l.drop maxLength)
      (l.take maxLength :: p.1, p.2)
    else ([], l)

/-- Hard-split of a single oversized line into `maxLength`-sized slices
plus a remainder (the source's `while` loop over `substring`). -/
def hardSplit (maxLength : Nat) (l : List Char) : List (List Char) × List Char :=
  hardSplitGo l.length maxLength l

/-- The `if (currentChunk.trim()) chunks.push(currentChunk.trim())`
pattern of `splitMessage` (it occurs both inside the loop and after it):
flush the trimmed buffer as a chunk when it is non-blank. -/
def flushChunks (chunks : List (List Char)) (currentChunk : List Char) :
    List (List Char) :=
  if trim currentChunk ≠ [] then chunks ++ [trim currentChunk] else chunks

/-- One iteration of the `for (const line of lines)` loop of
`splitMessage`: state is `(chunks so far, current buffer)`. -/
def splitStep (maxLength : Nat) (st : List (List Char) × List Char)
    (line : List Char) : List (List Char) × List Char :=
  let chunks := st.1
  let currentChunk := st.2
  if maxLength < currentChunk.length + line.length + 1 then
    let chunks1 := flushChunks chunks currentChunk
    if maxLength < line.length then
      let p := hardSplit maxLength line
      (chunks1 ++ p.1, p.2)
    else
      (chunks1, line)
  else
    if 0 < currentChunk.length then
      (chunks, currentChunk ++ '\n' :: line)
    else
      (chunks, line)

/-- `splitMessage(text, maxLength)` from `server/discord/handler.ts`
(the identical copy in `slashCommands.ts` is not duplicated). -/
def splitMessage (text : List Char) (maxLength : Nat) : List (List Char) :=
  if text.length ≤ maxLength then [text]
  else
    let st := (splitOnNl text).foldl (splitStep maxLength) ([], [])
    let chunks := flushChunks st.1 st.2
    if 0 < chunks.length then chunks else [text.take maxLength]

/-- Invariant carried through the chunking loop: every emitted chunk and
the current buffer are within the size bound. -/
def SplitInv (maxLength : Nat) (st : List (List Char) × List Char) : Prop :=
  (∀ c ∈ st.1, c.length ≤ maxLength) ∧ st.2.length ≤ maxLength

/-! ### Completion request builder (`server/openai/client.ts`) -/

/-- Fixed reply used when the completion succeeds but carries no text
(JS `content || fallback`, which also fires on the empty string). -/
def noResponseApology : String :=
  "I apologize, but I couldn\x27t generate a response. Please try again."

/-- Fixed reply for failures whose message mentions "rate limit". -/
def rateLimitApology : String :=
  "I\x27m currently experiencing high demand. Please try again in a moment."

/-- Fixed reply for failures whose message mentions "API key". -/
def apiKeyApology : String :=
  "There\x27s an issue with my configuration. Please contact the server administrator."

/-- Fixed reply for all other completion failures. -/
def genericApology : String :=
  "I encountered an error while processing your request. Please try again later."

/-- Whether `p` occurs at the head of `l` (helper for substring search). -/
def startsWithChars : List Char → List Char → Bool
  | [], _ => true
  | _ :: _, [] => false
  | p :: ps, c :: cs => p == c && startsWithChars ps cs

/-- Whether `needle` occurs contiguously inside `hay`
(model of JS `String.prototype.includes`). -/
def occursIn (needle : List Char) : List Char → Bool
  | [] => needle.isEmpty
  | c :: rest => startsWithChars needle (c :: rest) || occursIn needle rest

/-- The `catch` classifier of `generateAIResponse`: substring-match the
thrown error's message ("rate limit" / "API key") and pick the fixed
apology; a non-`Error` throw gets the generic apology. -/
def classifyFailure (errMessage : Option String) : String :=
  match errMessage with
  | some m =>
    if occursIn "rate limit".data m.data then rateLimitApology
    else if occursIn "API key".data m.data then apiKeyApology
    else genericApology
  | none => genericApology

/-- The system prompt assembled at the top of `generateAIResponse`:
fixed base clause, then one personality clause, then one length clause. -/
def buildSystemPrompt (personality responseLength : Option String) : String :=
  let base := "You are a helpful AI assistant in a Discord server. "
  let withPersonality :=
    match personality with
    | some "friendly" =>
      base ++ "Be warm, casual, and use friendly language. Use emojis occasionally to show enthusiasm. "
    | some "technical" =>
      base ++ "Be precise, technical, and detailed in your responses. Focus on accuracy and provide code examples when relevant. "
    | some "creative" =>
      base ++ "Be imaginative, creative, and think outside the box. Encourage creative thinking and exploration. "
    | _ => base ++ "Be helpful, clear, and informative. "
  match responseLength with
  | some "concise" =>
    withPersonality ++ "Keep responses brief and to the point. Aim for 1-2 sentences when possible."
  | some "detailed" =>
    withPersonality ++ "Provide comprehensive and detailed responses with examples and explanations."
  | _ => withPersonality ++ "Provide balanced responses that are informative but not overly long."

/-- The request handed to `openai.chat.completions.create`. -/
structure CompletionRequest where
  model : String
  messages : List ChatCompletionMessage
  maxTokens : Nat
  temperature : ℚ
deriving DecidableEq, Repr

/-- The request `generateAIResponse` constructs: system prompt, then the
context messages with their stored roles, then the current prompt unless
`contextMessages[contextMessages.length - 1].content === message`. -/
def buildCompletionRequest (message : String) (contextMessages : List Message)
    (personality responseLength : Option String) : CompletionRequest :=
  let systemPrompt := buildSystemPrompt personality responseLength
  let base : List ChatCompletionMessage :=
    ⟨"system", systemPrompt⟩ :: contextMessages.map (fun m => ⟨m.role, m.content⟩)
  -- `contextMessages[contextMessages.length - 1]` is `undefined` on `[]`
  let conversationMessages :=
    match contextMessages.getLast? with
    | none => base ++ [⟨"user", message⟩]
    | some lastMessage =>
      if lastMessage.content ≠ message then base ++ [⟨"user", message⟩] else base
  { model := "gpt-4o"
    messages := conversationMessages
    maxTokens :=
      if responseLength = some "detailed" then 1500
      else if responseLength = some "concise" then 500
      else 1000
    temperature := if personality = some "creative" then (0.8 : ℚ) else (0.7 : ℚ) }

/-- The string `generateAIResponse` resolves to, given the outcome of the
one external completion call: the completion's text (with the
no-text fallback), or a classified apology — this function never
throws past this boundary. -/
def generateAIResponse (message : String) (contextMessages : List Message)
    (personality responseLength : Option String)
    (outcome : CompletionOutcome) : String :=
  match outcome with
  | .success content =>
    match content with
    | some t => if t = "" then noResponseApology else t
    | none => noResponseApology
  | .failure e => classifyFailure e
  -- `message`/`contextMessages`/`personality`/`responseLength` shape the
  -- request, see `buildCompletionRequest`; the reply text depends only on
  -- the outcome.

/-! ### Response-mode policy (`MessageCreate` handler in `server/discord/bot.ts`) -/

/-- Default settings created on first contact. -/
def defaultSettings (guildId : String) : Settings :=
  { guildId := guildId
    cmdPrefix := ""
    responseLength := "medium"
    personality := "helpful"
    codeFormat := true
    allowedChannels := []
    channelMode := "all"
    slashCommandMode := "disabled"
    activatedChannels := [] }

/-- The admit/deny decision of the `MessageCreate` handler, applied after
settings have been loaded or created: channel restriction, then
`required` mode, then `activated` mode. -/
def messageCreateAdmits (settings : Settings) (channelId : String) : Bool :=
  if settings.channelMode == "specific" && settings.allowedChannels.length > 0
      && !(settings.allowedChannels.contains channelId) then
    false
  else if settings.slashCommandMode == "required" then
    false
  else if settings.slashCommandMode == "activated"
      && !(settings.activatedChannels.contains channelId) then
    false
  else
    true

/-! ### Channel activation (`handleActivateCommand` in `slashCommands.ts`) -/

/-- The settings row `handleActivateCommand` creates when none exists. -/
def defaultActivateSettings (guildId channelId : String) : Settings :=
  { guildId := guildId
    cmdPrefix := ""
    responseLength := "medium"
    personality := "helpful"
    codeFormat := true
    allowedChannels := []
    channelMode := "all"
    slashCommandMode := "activated"
    activatedChannels := [channelId] }

/-- `handleActivateCommand`: create defaults with the invoking channel
activated, or push the channel if absent and set mode `activated`;
the upsert persists the resulting row. -/
def handleActivateCommand (guildId channelId : String) :
    Option Settings → Settings
  | none => defaultActivateSettings guildId channelId
  | some s =>
    let activatedChannels :=
      if channelId ∈ s.activatedChannels then s.activatedChannels
      else s.activatedChannels ++ [channelId]
    { s with activatedChannels := activatedChannels, slashCommandMode := "activated" }

/-! ### Usage counters (`updateBotStats` in `server/storage.ts` and its
call in `server/discord/handler.ts`) -/

/-- Applying a partial patch to a stats row (`db.update(...).set`). -/
def applyStatsPatch (s : BotStats) (p : BotStatsPatch) : BotStats :=
  { totalServers := p.totalServers.getD s.totalServers
    totalMessages := p.totalMessages.getD s.totalMessages
    activeConversations := p.activeConversations.getD s.activeConversations
    apiCalls := p.apiCalls.getD s.apiCalls
    uptime := p.uptime.getD s.uptime }

/-- `storage.updateBotStats`: read the most recent row; update it with the
patch, or insert zeros overridden by the patch. -/
def updateBotStats (existing : Option BotStats) (p : BotStatsPatch) : BotStats :=
  match existing with
  | some s => applyStatsPatch s p
  | none => applyStatsPatch ⟨0, 0, 0, 0, 0⟩ p

/-- The patch the message handler builds.  The source reads
`(await storage.getBotStats())?.totalMessages ?? 0 + 1`; JavaScript `??`
binds looser than `+`, so this evaluates as `x ?? (0 + 1)`: the previous
value unchanged when a row exists, `1` otherwise.  Both reads observe the
same row in a sequential run, hence the single `prev` parameter. -/
def handlerStatsPatch (prev : Option BotStats) : BotStatsPatch :=
  { totalServers := none
    totalMessages := some ((prev.map (fun s => s.totalMessages)).getD (0 + 1))
    activeConversations := none
    apiCalls := some ((prev.map (fun s => s.apiCalls)).getD (0 + 1))
    uptime := none }

/-- The stats row persisted after one successfully handled plain message. -/
def statsAfterHandledMessage (prev : Option BotStats) : BotStats :=
  updateBotStats prev (handlerStatsPatch prev)

/-! ### Conversation turns (`handleMessage` in `server/discord/handler.ts`) -/

/-- Convenience constructor for a stored user message. -/
def mkUserMessage (content : String) : Message :=
  ⟨"user", content⟩

/-- Convenience constructor for a stored assistant message. -/
def mkAssistantMessage (content : String) : Message :=
  ⟨"assistant", content⟩

/-- JS `arr.slice(-n)`: the trailing `n` elements (all of them when the
list is shorter). -/
def sliceFromEnd (n : Nat) (l : List α) : List α :=
  l.drop (l.length - n)

/-- One successful `handleMessage` turn, restricted to conversation
state: persist the incoming user message, reload, take the trailing 10 as
context, generate the reply, persist it with role `assistant`.  Returns
the new stored list and the context that was passed to the builder. -/
def handleTurn (personality responseLength : Option String)
    (outcome : CompletionOutcome) (stored : List Message)
    (prompt : String) : List Message × List Message :=
  let afterUser := stored ++ [mkUserMessage prompt]
  let contextMessages := sliceFromEnd 10 afterUser
  let response := generateAIResponse prompt contextMessages personality responseLength outcome
  (afterUser ++ [mkAssistantMessage response], contextMessages)

/-- The stored message list after `n` sequential turns of one
conversation, with the `i`-th prompt and completion outcome supplied by
`prompts i` and `outcomes i`. -/
def runConversation (personality responseLength : Option String)
    (prompts : Nat → String) (outcomes : Nat → CompletionOutcome) :
    Nat → List Message
  | 0 => []
  | n + 1 =>
    (handleTurn personality responseLength (outcomes n)
      (runConversation personality responseLength prompts outcomes n)
      (prompts n)).1

/-- The reply text generated (and stored) at turn `n` of
`runConversation`: the completion of the turn's prompt over the turn's
trailing-10 context. -/
def turnResponse (personality responseLength : Option String)
    (prompts : Nat → String) (outcomes : Nat → CompletionOutcome)
    (n : Nat) : String :=
  generateAIResponse (prompts n)
    (sliceFromEnd 10 (runConversation personality responseLength prompts outcomes n
      ++ [mkUserMessage (prompts n)]))
    personality responseLength (outcomes n)

/-- Concrete prompts for the twelve-turn scenario: `"m1"`, …, `"m12"`. -/
def scenarioPrompts : Nat → String := fun n =>
  (["m1", "m2", "m3", "m4", "m5", "m6", "m7", "m8", "m9", "m10", "m11", "m12"]).getD n "m0"

/-- Concrete outcomes for the twelve-turn scenario: every completion
succeeds with the text `"ok"`. -/
def scenarioOutcomes : Nat → CompletionOutcome := fun _ =>
  .success (some "ok")

/-! ### The full `handleMessage` pipeline with fallible persistence -/

/-- Environment of one `handleMessage` run: what the store holds when the
event arrives, which persistence call (by execution index) rejects, and
the completion service outcome. -/
structure PipeEnv where
  userExists : Bool
  convExists : Bool
  failAt : Option Nat
  outcome : CompletionOutcome
  settings : Option Settings
  priorMessages : List Message
  prevStats : Option BotStats
  messageContent : String
deriving Repr

/-- Observable state accumulated by one `handleMessage` run. -/
structure PipeState where
  calls : Nat
  completionCalled : Bool
  repliesSent : List String
  channelSends : List String
  storedMessages : List Message
  statsWritten : Option BotStats
  errorLogged : Bool
deriving DecidableEq, Repr

/-- Initial pipeline state for an environment. -/
def initPipeState (env : PipeEnv) : PipeState :=
  { calls := 0
    completionCalled := false
    repliesSent := []
    channelSends := []
    storedMessages := env.priorMessages
    statsWritten := none
    errorLogged := false }

/-- One awaited persistence call: rejects (throwing into the handler's
`catch`) exactly when its execution index equals `failAt`. -/
def persistCall (failAt : Option Nat) (st : PipeState) : Except PipeState PipeState :=
  if failAt = some st.calls then .error { st with calls := st.calls + 1 }
  else .ok { st with calls := st.calls + 1 }

/-- The `try` body of `handleMessage`, with persistence calls in source
order: get user, (create user), get conversation, (create conversation),
store user message, reload messages, get settings, completion call,
store assistant reply, reply/chunk, then the stats read-read-write. -/
def handleMessageBody (env : PipeEnv) : Except PipeState PipeState :=
  (persistCall env.failAt (initPipeState env)).bind fun st =>
  (if env.userExists then .ok st else persistCall env.failAt st).bind fun st =>
  (persistCall env.failAt st).bind fun st =>
  (if env.convExists then .ok st else persistCall env.failAt st).bind fun st =>
  (persistCall env.failAt st).bind fun st =>
  let st := { st with storedMessages := st.storedMessages ++ [mkUserMessage env.messageContent] }
  (persistCall env.failAt st).bind fun st =>
  let contextMessages := sliceFromEnd 10 st.storedMessages
  (persistCall env.failAt st).bind fun st =>
  let st := { st with completionCalled := true }
  let response := generateAIResponse env.messageContent contextMessages
    (env.settings.map (fun s => s.personality))
    (env.settings.map (fun s => s.responseLength)) env.outcome
  (persistCall env.failAt st).bind fun st =>
  let st := { st with storedMessages := st.storedMessages ++ [mkAssistantMessage response] }
  let st :=
    if response.length ≤ 1900 then
      { st with repliesSent := st.repliesSent ++ [response] }
    else
      let chunks := splitMessage response.data 1900
      { st with repliesSent := st.repliesSent ++ [String.mk chunks.headI]
                channelSends := st.channelSends ++ (chunks.drop 1).map String.mk }
  (persistCall env.failAt st).bind fun st =>
  (persistCall env.failAt st).bind fun st =>
  (persistCall env.failAt st).bind fun st =>
  .ok { st with statsWritten := some (statsAfterHandledMessage env.prevStats) }

/-- The apology the handler's `catch` block replies with. -/
def handlerErrorReply : String :=
  "Sorry, I encountered an error while processing your message. Please try again later."

/-- `handleMessage` including its `try`/`catch`: any rejection is caught,
logged, and answered with the fixed apology reply. -/
def handleMessageModel (env : PipeEnv) : PipeState :=
  match handleMessageBody env with
  | .ok st => st
  | .error st => { st with errorLogged := true, repliesSent := st.repliesSent ++ [handlerErrorReply] }

/-- Number of persistence calls issued before the completion call. -/
def preCompletionCalls (env : PipeEnv) : Nat :=
  5 + (if env.userExists then 0 else 1) + (if env.convExists then 0 else 1)

/-- Scenario for claim C2: user and conversation exist, and the third
persistence call — storing the incoming user message — rejects. -/
def envUserMessageStoreFails : PipeEnv :=
  { userExists := true
    convExists := true
    failAt := some 2
    outcome := .success (some "ok")
    settings := none
    priorMessages := []
    prevStats := none
    messageContent := "hi" }

/-- Settings row for claim C3: mode `activated`, activated set `{"C1"}`,
channel mode `all`. -/
def activatedOnlySettings : Settings :=
  { guildId := "G"
    cmdPrefix := ""
    responseLength := "medium"
    personality := "helpful"
    codeFormat := true
    allowedChannels := []
    channelMode := "all"
    slashCommandMode := "activated"
    activatedChannels := ["C1"] }

/-- A failure-free run over an existing stats row, for claim C1:
the previous counters are `totalMessages = 5`, `apiCalls = 7`. -/
def envWithStats : PipeEnv :=
  { userExists := true
    convExists := true
    failAt := none
    outcome := .success (some "ok")
    settings := none
    priorMessages := []
    prevStats := some ⟨3, 5, 2, 7, 100⟩
    messageContent := "hi" }

/-- A settings row in `required` mode with non-trivial channel lists,
used to instantiate claim C3's universal part. -/
def requiredModeSettings : Settings :=
  { guildId := "G"
    cmdPrefix := ""
    responseLength := "medium"
    personality := "helpful"
    codeFormat := true
    allowedChannels := ["A"]
    channelMode := "specific"
    slashCommandMode := "required"
    activatedChannels := ["B"] }

/-! ## Theorems -/

/-- Trimming never lengthens a buffer. -/
theorem trim_length_le (l : List Char) : (trim l).length ≤ l.length := by
  unfold trim trimRight trimLeft
  calc ((l.dropWhile isJsWhitespace).reverse.dropWhile isJsWhitespace).reverse.length
      = ((l.dropWhile isJsWhitespace).reverse.dropWhile isJsWhitespace).length := by
        rw [List.length_reverse]
    _ ≤ (l.dropWhile isJsWhitespace).reverse.length :=
        (List.dropWhile_sublist _).length_le
    _ = (l.dropWhile isJsWhitespace).length := by rw [List.length_reverse]
    _ ≤ l.length := (List.dropWhile_sublist _).length_le

/-- Flushing preserves the chunk-size bound. -/
theorem flushChunks_le (L : Nat) (chunks : List (List Char)) (cur : List Char)
    (hchunks : ∀ c ∈ chunks, c.length ≤ L) (hcur : cur.length ≤ L) :
    ∀ c ∈ flushChunks chunks cur, c.length ≤ L := by
  intro c hc
  unfold flushChunks at hc
  by_cases ht : trim cur ≠ []
  · rw [if_pos ht] at hc
    rcases List.mem_append.mp hc with hc | hc
    · exact hchunks c hc
    · rcases List.mem_singleton.mp hc with rfl
      exact le_trans (trim_length_le cur) hcur
  · rw [if_neg ht] at hc
    exact hchunks c hc

/-- The hard-split loop emits only pieces within the bound and leaves a
remainder within the bound, given enough fuel. -/
theorem hardSplitGo_inv (L : Nat) (hL : 1 ≤ L) :
    ∀ (fuel : Nat) (l : List Char), l.length ≤ fuel * L + L →
      (∀ c ∈ (hardSplitGo fuel L l).1, c.length ≤ L)
      ∧ (hardSplitGo fuel L l).2.length ≤ L := by
  intro fuel
  induction fuel with
  | zero =>
    intro l hl
    refine ⟨fun c hc => absurd hc (by simp [hardSplitGo]), ?_⟩
    simpa [hardSplitGo] using by omega
  | succ n ih =>
    intro l hl
    by_cases h : L < l.length
    · have hlen : (l.drop L).length ≤ n * L + L := by
        rw [List.length_drop]
        have hm : (n + 1) * L = n * L + L := Nat.succ_mul n L
        rw [hm] at hl
        set A := n * L with hA
        omega
      have hrec := ih (l.drop L) hlen
      simp only [hardSplitGo, if_pos h]
      constructor
      · intro c hc
        rcases List.mem_cons.mp hc with rfl | hc
        · calc (l.take L).length = min L l.length := List.length_take L l
            _ ≤ L := Nat.min_le_left _ _
        · exact hrec.1 c hc
      · exact hrec.2
    · push_neg at h
      simp only [hardSplitGo, if_neg (by omega : ¬ L < l.length)]
      exact ⟨fun c hc => absurd hc (by simp), h⟩

/-- `hardSplit` specification: all pieces and the remainder fit the bound. -/
theorem hardSplit_inv (L : Nat) (hL : 1 ≤ L) (l : List Char) :
    (∀ c ∈ (hardSplit L l).1, c.length ≤ L) ∧ (hardSplit L l).2.length ≤ L := by
  apply hardSplitGo_inv L hL l.length l
  have h1 : l.length * 1 ≤ l.length * L := Nat.mul_le_mul_left _ hL
  have h2 : l.length * 1 = l.length := Nat.mul_one _
  set A := l.length * L with hA
  omega

/-- One loop iteration preserves the chunking invariant. -/
theorem splitStep_inv (L : Nat) (hL : 1 ≤ L) (st : List (List Char) × List Char)
    (line : List Char) (hinv : SplitInv L st) : SplitInv L (splitStep L st line) := by
  obtain ⟨hchunks, hcur⟩ := hinv
  unfold splitStep
  dsimp only
  by_cases hflush : L < st.2.length + line.length + 1
  · rw [if_pos hflush]
    have hflushed := flushChunks_le L st.1 st.2 hchunks hcur
    by_cases hbig : L < line.length
    · rw [if_pos hbig]
      refine ⟨fun c hc => ?_, (hardSplit_inv L hL line).2⟩
      rcases List.mem_append.mp hc with hc | hc
      · exact hflushed c hc
      · exact (hardSplit_inv L hL line).1 c hc
    · rw [if_neg hbig]
      refine ⟨hflushed, ?_⟩
      show line.length ≤ L
      omega
  · rw [if_neg hflush]
    push_neg at hflush
    by_cases hne : 0 < st.2.length
    · rw [if_pos hne]
      refine ⟨hchunks, ?_⟩
      simp only [List.length_append, List.length_cons]
      omega
    · rw [if_neg hne]
      refine ⟨hchunks, ?_⟩
      show line.length ≤ L
      omega

/-- The whole loop preserves the chunking invariant. -/
theorem foldl_splitStep_inv (L : Nat) (hL : 1 ≤ L) (lines : List (List Char)) :
    ∀ st, SplitInv L st → SplitInv L (lines.foldl (splitStep L) st) := by
  induction lines with
  | nil => intro st h; exact h
  | cons l ls ih =>
    intro st h
    exact ih _ (splitStep_inv L hL st l h)

/-- Every chunk `splitMessage` returns is within the requested bound. -/
theorem splitMessage_chunks_le (s : List Char) (L : Nat) (hL : 1 ≤ L) :
    ∀ c ∈ splitMessage s L, c.length ≤ L := by
  intro c hc
  unfold splitMessage at hc
  by_cases hs : s.length ≤ L
  · rw [if_pos hs] at hc
    rcases List.mem_singleton.mp hc with rfl
    exact hs
  · rw [if_neg hs] at hc
    dsimp only at hc
    have hinv := foldl_splitStep_inv L hL (splitOnNl s) ([], [])
      ⟨fun c hc => absurd hc (by simp), by simp⟩
    set st := (splitOnNl s).foldl (splitStep L) ([], []) with hst
    have hflushed := flushChunks_le L st.1 st.2 hinv.1 hinv.2
    by_cases hlen : 0 < (flushChunks st.1 st.2).length
    · rw [if_pos hlen] at hc
      exact hflushed c hc
    · rw [if_neg hlen] at hc
      rcases List.mem_singleton.mp hc with rfl
      calc (s.take L).length = min L s.length := List.length_take L s
        _ ≤ L := Nat.min_le_left _ _

/-- `splitMessage` never returns an empty sequence. -/
theorem splitMessage_ne_nil (s : List Char) (L : Nat) : splitMessage s L ≠ [] := by
  unfold splitMessage
  by_cases hs : s.length ≤ L
  · rw [if_pos hs]; simp
  · rw [if_neg hs]
    dsimp only
    by_cases hlen : 0 < (flushChunks ((splitOnNl s).foldl (splitStep L) ([], [])).1
        ((splitOnNl s).foldl (splitStep L) ([], [])).2).length
    · rw [if_pos hlen]
      exact List.ne_nil_of_length_pos hlen
    · rw [if_neg hlen]; simp

/-- A text already within the bound is returned as the single chunk. -/
theorem splitMessage_short (t : List Char) (L : Nat) (ht : t.length ≤ L) :
    splitMessage t L = [t] := by
  unfold splitMessage
  rw [if_pos ht]

/-- Claim C4: for every string `s` and `maxLength ≥ 1`, `splitMessage`
returns at least one chunk, every chunk's length is at most `maxLength`,
and re-chunking the first chunk returns exactly that one chunk. -/
theorem splitMessage_spec (s : List Char) (L : Nat) (hL : 1 ≤ L) :
    splitMessage s L ≠ []
  ∧ (∀ c ∈ splitMessage s L, c.length ≤ L)
  ∧ splitMessage (splitMessage s L).headI L = [(splitMessage s L).headI] := by
  refine ⟨splitMessage_ne_nil s L, splitMessage_chunks_le s L hL, ?_⟩
  rcases hsp : splitMessage s L with _ | ⟨a, rest⟩
  · exact absurd hsp (splitMessage_ne_nil s L)
  · have ha : a ∈ splitMessage s L := by
      rw [hsp]; exact List.mem_cons_self a rest
    have hlen := splitMessage_chunks_le s L hL a ha
    simp only [List.headI]
    exact splitMessage_short a L hlen

/-- Witness for claim C4 at the concrete input `"ab\ncdef"`, bound 3. -/
theorem splitMessage_spec_witness :
    splitMessage ("ab\ncdef".data) 3 ≠ []
  ∧ (∀ c ∈ splitMessage ("ab\ncdef".data) 3, c.length ≤ 3)
  ∧ splitMessage (splitMessage ("ab\ncdef".data) 3).headI 3
      = [(splitMessage ("ab\ncdef".data) 3).headI] :=
  splitMessage_spec ("ab\ncdef".data) 3 (by decide)

/-- `split('\n')` leaves a newline-free text as the single line. -/
theorem splitOnNl_replicate_b (n : Nat) :
    splitOnNl (List.replicate n 'b') = [List.replicate n 'b'] := by
  induction n with
  | zero => rfl
  | succ m ih =>
    rw [List.replicate_succ]
    unfold splitOnNl
    rw [if_neg (by decide), ih]

/-- The two lines of the claim-C9 input. -/
theorem splitOnNl_c9 :
    splitOnNl ('a' :: '\n' :: List.replicate 3000 'b')
      = [['a'], List.replicate 3000 'b'] := by
  have h1 : splitOnNl ('\n' :: List.replicate 3000 'b')
      = [] :: [List.replicate 3000 'b'] := by
    unfold splitOnNl
    rw [if_pos rfl, splitOnNl_replicate_b]
  unfold splitOnNl
  rw [if_neg (by decide), h1]

/-- The hard-split loop is the identity on a line within the bound. -/
theorem hardSplitGo_small (fuel L : Nat) (l : List Char) (h : ¬ L < l.length) :
    hardSplitGo fuel L l = ([], l) := by
  cases fuel with
  | zero => rfl
  | succ n => simp only [hardSplitGo, if_neg h]

/-- One productive step of the hard-split loop. -/
theorem hardSplitGo_big (fuel L : Nat) (l : List Char) (h : L < l.length) :
    hardSplitGo (fuel + 1) L l
      = (l.take L :: (hardSplitGo fuel L (l.drop L)).1,
         (hardSplitGo fuel L (l.drop L)).2) := by
  simp only [hardSplitGo, if_pos h]

/-- Hard-splitting the 3000-character line at 1900. -/
theorem hardSplit_c9 :
    hardSplit 1900 (List.replicate 3000 'b')
      = ([List.replicate 1900 'b'], List.replicate 1100 'b') := by
  unfold hardSplit
  rw [List.length_replicate]
  rw [show (3000 : Nat) = 2999 + 1 from rfl]
  rw [hardSplitGo_big 2999 1900 _ (by rw [List.length_replicate]; omega)]
  rw [List.take_replicate, List.drop_replicate]
  norm_num
  rw [hardSplitGo_small 2999 1900 _ (by rw [List.length_replicate]; omega)]
  exact ⟨rfl, rfl⟩

/-- Trimming is the identity on a run of `'b'`s. -/
theorem trim_replicate_b (n : Nat) :
    trim (List.replicate n 'b') = List.replicate n 'b' := by
  have hdrop : ∀ m : Nat,
      (List.replicate m 'b').dropWhile isJsWhitespace = List.replicate m 'b' := by
    intro m
    cases m with
    | zero => rfl
    | succ k =>
      rw [List.replicate_succ, List.dropWhile_cons]
      rw [if_neg (by decide)]
  unfold trim trimRight trimLeft
  rw [hdrop, List.reverse_replicate, hdrop, List.reverse_replicate]

/-- Claim C9: chunking `"a\n" ++ "b"*3000` at 1900 hard-slices the
oversized line into a 1900-piece and an 1100-remainder, with the short
line `"a"` emitted separately as its own chunk. -/
theorem splitMessage_oversizedLine :
    splitMessage ('a' :: '\n' :: List.replicate 3000 'b') 1900
      = [['a'], List.replicate 1900 'b', List.replicate 1100 'b'] := by
  have hstep1 : splitStep 1900 ([], []) ['a'] = ([], ['a']) := by decide
  have hstep2 : splitStep 1900 ([], ['a']) (List.replicate 3000 'b')
      = ([['a'], List.replicate 1900 'b'], List.replicate 1100 'b') := by
    unfold splitStep
    dsimp only
    rw [if_pos (by rw [List.length_replicate]; norm_num)]
    rw [if_pos (by rw [List.length_replicate]; norm_num)]
    rw [hardSplit_c9]
    rw [show flushChunks [] ['a'] = [['a']] from by decide]
    rfl
  have hflush : flushChunks [['a'], List.replicate 1900 'b'] (List.replicate 1100 'b')
      = [['a'], List.replicate 1900 'b', List.replicate 1100 'b'] := by
    unfold flushChunks
    rw [trim_replicate_b]
    rw [if_pos (List.ne_nil_of_length_pos (by rw [List.length_replicate]; omega))]
    rfl
  unfold splitMessage
  rw [if_neg (by
    rw [List.length_cons, List.length_cons, List.length_replicate]
    omega)]
  dsimp only
  rw [splitOnNl_c9, List.foldl_cons, List.foldl_cons, List.foldl_nil,
    hstep1, hstep2]
  dsimp only
  rw [hflush]
  rw [if_pos (by
    simp only [List.length_cons, List.length_nil]
    omega)]

/-- Claim C1 (code bug): the handler's stats update does not increment.
`x ?? 0 + 1` parses as `x ?? (0 + 1)`, so over an existing row with
`totalMessages = 5`, `apiCalls = 7` the persisted row is unchanged — not
`6`/`8` as specified — while a missing row is initialised to `1`/`1`.
The run through the full pipeline model confirms the persisted row. -/
theorem statsUpdate_not_incremented :
    (handleMessageModel envWithStats).statsWritten = some ⟨3, 5, 2, 7, 100⟩
  ∧ statsAfterHandledMessage (some ⟨3, 5, 2, 7, 100⟩) = ⟨3, 5, 2, 7, 100⟩
  ∧ (statsAfterHandledMessage (some ⟨3, 5, 2, 7, 100⟩)).totalMessages ≠ 5 + 1
  ∧ (statsAfterHandledMessage (some ⟨3, 5, 2, 7, 100⟩)).apiCalls ≠ 7 + 1
  ∧ statsAfterHandledMessage none = ⟨0, 1, 0, 1, 0⟩ := by
  decide

/-- Claim C2 counterexample: when the persistence call storing the
incoming user message rejects, the pipeline does abort before the
completion call and logs, but a reply IS sent — the fixed apology —
refuting "no reply is sent". -/
theorem storageFailure_sends_reply :
    (handleMessageModel envUserMessageStoreFails).completionCalled = false
  ∧ (handleMessageModel envUserMessageStoreFails).errorLogged = true
  ∧ (handleMessageModel envUserMessageStoreFails).repliesSent = [handlerErrorReply]
  ∧ (handleMessageModel envUserMessageStoreFails).repliesSent ≠ [] := by
  decide

/-- Claim C2 (amended): if a persistence call preceding the completion
call fails during plain-message handling, the pipeline aborts without
attempting a completion call and without persisting stats, the failure is
logged, and the fixed apology reply is sent (rather than no reply). -/
theorem storageFailure_aborts (ue ce : Bool) (k : Nat)
    (oc : CompletionOutcome) (se : Option Settings) (pm : List Message)
    (ps : Option BotStats) (mc : String)
    (hk : k < preCompletionCalls ⟨ue, ce, some k, oc, se, pm, ps, mc⟩) :
    (handleMessageModel ⟨ue, ce, some k, oc, se, pm, ps, mc⟩).completionCalled = false
  ∧ (handleMessageModel ⟨ue, ce, some k, oc, se, pm, ps, mc⟩).errorLogged = true
  ∧ (handleMessageModel ⟨ue, ce, some k, oc, se, pm, ps, mc⟩).repliesSent = [handlerErrorReply]
  ∧ (handleMessageModel ⟨ue, ce, some k, oc, se, pm, ps, mc⟩).statsWritten = none := by
  have hk7 : k < 7 := by
    cases ue <;> cases ce <;> simp [preCompletionCalls] at hk <;> omega
  cases ue <;> cases ce <;> interval_cases k <;>
    first
      | exact ⟨rfl, rfl, rfl, rfl⟩
      | simp [preCompletionCalls] at hk

/-- Witness for claim C2's amended theorem: conversation-creation call
(index 3 when the user exists but the conversation does not) fails. -/
theorem storageFailure_aborts_witness :
    (handleMessageModel ⟨true, false, some 3, .success (some "ok"), none, [], none, "hello"⟩).completionCalled = false
  ∧ (handleMessageModel ⟨true, false, some 3, .success (some "ok"), none, [], none, "hello"⟩).errorLogged = true
  ∧ (handleMessageModel ⟨true, false, some 3, .success (some "ok"), none, [], none, "hello"⟩).repliesSent = [handlerErrorReply]
  ∧ (handleMessageModel ⟨true, false, some 3, .success (some "ok"), none, [], none, "hello"⟩).statsWritten = none :=
  storageFailure_aborts true false 3 (.success (some "ok")) none [] none "hello" (by decide)

/-- Claim C3: with slash-command mode `required` every plain message is
denied regardless of channel lists; with mode `activated`, activated set
`{"C1"}` and channel mode `all`, channel `"C2"` is denied and `"C1"`
admitted. -/
theorem messageCreate_policy (s : Settings) (channelId : String)
    (hreq : s.slashCommandMode = "required") :
    messageCreateAdmits s channelId = false
  ∧ messageCreateAdmits activatedOnlySettings "C2" = false
  ∧ messageCreateAdmits activatedOnlySettings "C1" = true := by
  refine ⟨?_, by decide, by decide⟩
  unfold messageCreateAdmits
  rw [hreq]
  split
  · rfl
  · simp

/-- Witness for claim C3 at a `required`-mode row with non-empty
channel lists. -/
theorem messageCreate_policy_witness :
    messageCreateAdmits requiredModeSettings "A" = false
  ∧ messageCreateAdmits activatedOnlySettings "C2" = false
  ∧ messageCreateAdmits activatedOnlySettings "C1" = true :=
  messageCreate_policy requiredModeSettings "A" rfl

/-- Claim C5 counterexample: in the twelve-turn scenario the context of
turn 12 is not the ten user turns 2–11, and indeed is not made of user
entries only — assistant replies are interleaved. -/
theorem turn12Context_counterexample :
    (handleTurn none none (scenarioOutcomes 11)
        (runConversation none none scenarioPrompts scenarioOutcomes 11)
        (scenarioPrompts 11)).2
      ≠ [mkUserMessage "m2", mkUserMessage "m3", mkUserMessage "m4",
         mkUserMessage "m5", mkUserMessage "m6", mkUserMessage "m7",
         mkUserMessage "m8", mkUserMessage "m9", mkUserMessage "m10",
         mkUserMessage "m11"]
  ∧ ((handleTurn none none (scenarioOutcomes 11)
        (runConversation none none scenarioPrompts scenarioOutcomes 11)
        (scenarioPrompts 11)).2).map Message.role
      ≠ List.replicate 10 "user" := by
  decide

/-- Unfolding one turn of `runConversation`. -/
theorem runConversation_succ (personality responseLength : Option String)
    (prompts : Nat → String) (outcomes : Nat → CompletionOutcome) (n : Nat) :
    runConversation personality responseLength prompts outcomes (n + 1)
      = runConversation personality responseLength prompts outcomes n
        ++ [mkUserMessage (prompts n),
            mkAssistantMessage (turnResponse personality responseLength prompts outcomes n)] := by
  show (runConversation personality responseLength prompts outcomes n
      ++ [mkUserMessage (prompts n)])
      ++ [mkAssistantMessage (turnResponse personality responseLength prompts outcomes n)] = _
  rw [List.append_assoc]
  simp only [List.cons_append, List.nil_append]

/-- After `n` turns the conversation stores `2 * n` messages. -/
theorem runConversation_length (personality responseLength : Option String)
    (prompts : Nat → String) (outcomes : Nat → CompletionOutcome) :
    ∀ n, (runConversation personality responseLength prompts outcomes n).length = 2 * n := by
  intro n
  induction n with
  | zero => rfl
  | succ m ih =>
    rw [runConversation_succ, List.length_append, ih]
    simp only [List.length_cons, List.length_nil]
    omega

/-- Claim C5 (amended): after 11 sequential user turns (each of which
also stores the assistant's reply), turn 12's context — computed as
persist incoming user message, reload, take trailing 10 — contains
exactly 10 entries: assistant replies of turns 7–11 interleaved with user
turns 8–11, ending with turn 12's just-stored user message. -/
theorem turn12Context (personality responseLength : Option String)
    (prompts : Nat → String) (outcomes : Nat → CompletionOutcome) :
    ((handleTurn personality responseLength (outcomes 11)
        (runConversation personality responseLength prompts outcomes 11)
        (prompts 11)).2).length = 10
  ∧ ((handleTurn personality responseLength (outcomes 11)
        (runConversation personality responseLength prompts outcomes 11)
        (prompts 11)).2).map Message.role
      = ["assistant", "user", "assistant", "user", "assistant",
         "user", "assistant", "user", "assistant", "user"]
  ∧ (((handleTurn personality responseLength (outcomes 11)
        (runConversation personality responseLength prompts outcomes 11)
        (prompts 11)).2).filter (fun m => m.role == "user")).map Message.content
      = [prompts 7, prompts 8, prompts 9, prompts 10, prompts 11]
  ∧ (handleTurn personality responseLength (outcomes 11)
        (runConversation personality responseLength prompts outcomes 11)
        (prompts 11)).2
      = sliceFromEnd 10
          (runConversation personality responseLength prompts outcomes 11
            ++ [mkUserMessage (prompts 11)]) := by
  have hctx : (handleTurn personality responseLength (outcomes 11)
        (runConversation personality responseLength prompts outcomes 11)
        (prompts 11)).2
      = sliceFromEnd 10
          (runConversation personality responseLength prompts outcomes 11
            ++ [mkUserMessage (prompts 11)]) := by dsimp only [handleTurn]
  have hdec : runConversation personality responseLength prompts outcomes 11
      = runConversation personality responseLength prompts outcomes 6
        ++ [mkUserMessage (prompts 6),
            mkAssistantMessage (turnResponse personality responseLength prompts outcomes 6),
            mkUserMessage (prompts 7),
            mkAssistantMessage (turnResponse personality responseLength prompts outcomes 7),
            mkUserMessage (prompts 8),
            mkAssistantMessage (turnResponse personality responseLength prompts outcomes 8),
            mkUserMessage (prompts 9),
            mkAssistantMessage (turnResponse personality responseLength prompts outcomes 9),
            mkUserMessage (prompts 10),
            mkAssistantMessage (turnResponse personality responseLength prompts outcomes 10)] := by
    rw [show (11 : Nat) = 10 + 1 from rfl, runConversation_succ]
    rw [show (10 : Nat) = 9 + 1 from rfl, runConversation_succ]
    rw [show (9 : Nat) = 8 + 1 from rfl, runConversation_succ]
    rw [show (8 : Nat) = 7 + 1 from rfl, runConversation_succ]
    rw [show (7 : Nat) = 6 + 1 from rfl, runConversation_succ]
    simp only [List.append_assoc, List.cons_append, List.nil_append]
  have hwhole : runConversation personality responseLength prompts outcomes 11
        ++ [mkUserMessage (prompts 11)]
      = runConversation personality responseLength prompts outcomes 6
        ++ [mkUserMessage (prompts 6),
            mkAssistantMessage (turnResponse personality responseLength prompts outcomes 6),
            mkUserMessage (prompts 7),
            mkAssistantMessage (turnResponse personality responseLength prompts outcomes 7),
            mkUserMessage (prompts 8),
            mkAssistantMessage (turnResponse personality responseLength prompts outcomes 8),
            mkUserMessage (prompts 9),
            mkAssistantMessage (turnResponse personality responseLength prompts outcomes 9),
            mkUserMessage (prompts 10),
            mkAssistantMessage (turnResponse personality responseLength prompts outcomes 10),
            mkUserMessage (prompts 11)] := by
    rw [hdec]
    simp only [List.append_assoc, List.cons_append, List.nil_append]
  have hlen6 : (runConversation personality responseLength prompts outcomes 6).length = 12 := by
    rw [runConversation_length]
  have hslice : sliceFromEnd 10
        (runConversation personality responseLength prompts outcomes 11
          ++ [mkUserMessage (prompts 11)])
      = [mkAssistantMessage (turnResponse personality responseLength prompts outcomes 6),
         mkUserMessage (prompts 7),
         mkAssistantMessage (turnResponse personality responseLength prompts outcomes 7),
         mkUserMessage (prompts 8),
         mkAssistantMessage (turnResponse personality responseLength prompts outcomes 8),
         mkUserMessage (prompts 9),
         mkAssistantMessage (turnResponse personality responseLength prompts outcomes 9),
         mkUserMessage (prompts 10),
         mkAssistantMessage (turnResponse personality responseLength prompts outcomes 10),
         mkUserMessage (prompts 11)] := by
    rw [hwhole]
    unfold sliceFromEnd
    rw [List.length_append, hlen6]
    norm_num
    rw [show (13 : Nat) = 12 + 1 by rfl, ← hlen6, List.drop_append]
    rfl
  refine ⟨?_, ?_, ?_, hctx⟩ <;> rw [hctx, hslice] <;> rfl

/-- Claim C6: temperature is 0.8 exactly for personality `creative` and
0.7 for every other value; max tokens is 500 for `concise`, 1500 for
`detailed`, and 1000 otherwise. -/
theorem completionRequest_params (message : String) (contextMessages : List Message)
    (personality responseLength : Option String) :
    ((buildCompletionRequest message contextMessages personality responseLength).temperature
        = if personality = some "creative" then (0.8 : ℚ) else (0.7 : ℚ))
  ∧ ((buildCompletionRequest message contextMessages personality responseLength).maxTokens
        = if responseLength = some "concise" then 500
          else if responseLength = some "detailed" then 1500
          else 1000) := by
  constructor
  · rfl
  · show (if responseLength = some "detailed" then 1500
      else if responseLength = some "concise" then 500 else 1000) = _
    by_cases h2 : responseLength = some "detailed"
    · rw [if_pos h2, if_neg (by rw [h2]; simp), if_pos h2]
    · rw [if_neg h2]
      by_cases h1 : responseLength = some "concise"
      · rw [if_pos h1, if_pos h1]
      · rw [if_neg h1, if_neg h1, if_neg h2]

/-- Claim C7: the prompt sequence is the system instruction, the context
messages with their stored roles, then the current prompt tagged `user` —
omitted exactly when the last context message's content equals the
prompt. -/
theorem completionRequest_messages (message : String) (contextMessages : List Message)
    (personality responseLength : Option String) :
    (buildCompletionRequest message contextMessages personality responseLength).messages =
      ((⟨"system", buildSystemPrompt personality responseLength⟩ : ChatCompletionMessage)
        :: contextMessages.map (fun m => (⟨m.role, m.content⟩ : ChatCompletionMessage)))
      ++ (if (contextMessages.getLast?).any (fun last => last.content == message)
          then [] else [⟨"user", message⟩]) := by
  unfold buildCompletionRequest
  dsimp only
  rcases h : contextMessages.getLast? with _ | last
  · simp [h]
  · by_cases hc : last.content = message
    · simp [h, hc]
    · simp [h, hc]

/-- Claim C8: activating the same channel twice is idempotent — over any
prior state in which the channel is not duplicated, the activated set
holds exactly one occurrence of the channel id afterwards — and
activation on an absent (unset) settings row sets mode `activated`. -/
theorem activateChannel_idempotent (g c : String) (st : Option Settings)
    (h : ∀ s, st = some s → List.count c s.activatedChannels ≤ 1) :
    handleActivateCommand g c (some (handleActivateCommand g c st))
      = handleActivateCommand g c st
  ∧ List.count c (handleActivateCommand g c
      (some (handleActivateCommand g c st))).activatedChannels = 1
  ∧ (handleActivateCommand g c none).slashCommandMode = "activated" := by
  have idem1 : ∀ t : Settings, c ∈ t.activatedChannels →
      t.slashCommandMode = "activated" →
      handleActivateCommand g c (some t) = t := by
    intro t hm hmo
    have hred : handleActivateCommand g c (some t)
        = { t with
            activatedChannels :=
              if c ∈ t.activatedChannels then t.activatedChannels
              else t.activatedChannels ++ [c],
            slashCommandMode := "activated" } := rfl
    rw [hred, if_pos hm, ← hmo]
  have hmem : ∀ t : Option Settings, c ∈ (handleActivateCommand g c t).activatedChannels := by
    intro t
    rcases t with _ | s
    · exact List.mem_singleton.mpr rfl
    · show c ∈ (if c ∈ s.activatedChannels then s.activatedChannels
        else s.activatedChannels ++ [c])
      by_cases hc : c ∈ s.activatedChannels
      · rw [if_pos hc]; exact hc
      · rw [if_neg hc]
        exact List.mem_append_right _ (List.mem_singleton.mpr rfl)
  have hmode : ∀ t : Option Settings,
      (handleActivateCommand g c t).slashCommandMode = "activated" := by
    intro t
    rcases t with _ | s <;> rfl
  have hidem := idem1 (handleActivateCommand g c st) (hmem st) (hmode st)
  refine ⟨hidem, ?_, rfl⟩
  rw [hidem]
  rcases st with _ | s
  · show List.count c [c] = 1
    simp
  · have hcount := h s rfl
    show List.count c (if c ∈ s.activatedChannels then s.activatedChannels
      else s.activatedChannels ++ [c]) = 1
    by_cases hc : c ∈ s.activatedChannels
    · rw [if_pos hc]
      have h1 : 0 < List.count c s.activatedChannels := List.count_pos_iff.mpr hc
      omega
    · rw [if_neg hc]
      rw [List.count_append]
      rw [List.count_eq_zero.mpr hc]
      simp

/-- Witness for claim C8 starting from a missing settings row. -/
theorem activateChannel_idempotent_witness :
    handleActivateCommand "G" "chan" (some (handleActivateCommand "G" "chan" none))
      = handleActivateCommand "G" "chan" none
  ∧ List.count "chan" (handleActivateCommand "G" "chan"
      (some (handleActivateCommand "G" "chan" none))).activatedChannels = 1
  ∧ (handleActivateCommand "G" "chan" none).slashCommandMode = "activated" :=
  activateChannel_idempotent "G" "chan" none (fun s hs => nomatch hs)

/-- An element of a short suffix survives `slice(-10)`. -/
theorem mem_sliceFromEnd_of_mem_suffix {α : Type} (l suf : List α) (x : α)
    (n : Nat) (hx : x ∈ suf) (hlen : suf.length ≤ n) :
    x ∈ sliceFromEnd n (l ++ suf) := by
  unfold sliceFromEnd
  rcases Nat.le_total (l.length + suf.length) n with h | h
  · have hz : (l ++ suf).length - n = 0 := by
      rw [List.length_append]; omega
    rw [hz, List.drop_zero]
    exact List.mem_append_right _ hx
  · have hk : (l ++ suf).length - n ≤ l.length := by
      rw [List.length_append]; omega
    rw [List.drop_append_of_le_length hk]
    exact List.mem_append_right _ hx

/-- Claim C10: on a completion-service failure the builder returns one of
the fixed apology strings, the pipeline stores it with role `assistant`,
and any subsequent turn's trailing-10 context contains that apology
entry. -/
theorem completionFailure_apology (e : Option String) (stored : List Message)
    (personality responseLength p2 rl2 : Option String)
    (prompt prompt2 : String) (outcome2 : CompletionOutcome) :
    (classifyFailure e = rateLimitApology ∨ classifyFailure e = apiKeyApology
      ∨ classifyFailure e = genericApology)
  ∧ (handleTurn personality responseLength (.failure e) stored prompt).1
      = stored ++ [mkUserMessage prompt, mkAssistantMessage (classifyFailure e)]
  ∧ mkAssistantMessage (classifyFailure e)
      ∈ (handleTurn p2 rl2 outcome2
          (handleTurn personality responseLength (.failure e) stored prompt).1
          prompt2).2 := by
  refine ⟨?_, ?_, ?_⟩
  · rcases e with _ | m
    · right; right; rfl
    · have hred : classifyFailure (some m)
          = (if occursIn "rate limit".data m.data then rateLimitApology
             else if occursIn "API key".data m.data then apiKeyApology
             else genericApology) := rfl
      rw [hred]
      by_cases h1 : occursIn "rate limit".data m.data
      · rw [if_pos h1]; left; rfl
      · rw [if_neg h1]
        by_cases h2 : occursIn "API key".data m.data
        · rw [if_pos h2]; right; left; rfl
        · rw [if_neg h2]; right; right; rfl
  · show (stored ++ [mkUserMessage prompt]) ++ [mkAssistantMessage (classifyFailure e)]
      = stored ++ [mkUserMessage prompt, mkAssistantMessage (classifyFailure e)]
    rw [List.append_assoc]
    rfl
  · show mkAssistantMessage (classifyFailure e)
      ∈ sliceFromEnd 10
        (((stored ++ [mkUserMessage prompt]) ++ [mkAssistantMessage (classifyFailure e)])
          ++ [mkUserMessage prompt2])
    rw [List.append_assoc, List.append_assoc]
    exact mem_sliceFromEnd_of_mem_suffix stored _ _ 10
      (by simp) (by simp)

end Popo
